import Mathlib

set_option maxRecDepth 8000

/-!
Shallow embedding of `custom_components/olarm_sensors/olarm_api.py`, the
device-state normalizers of the Olarm Home Assistant integration, together
with proofs of the specification claims about them.

The Python functions are loosely typed loops over JSON arrays.  They are
embedded as executable Lean functions over an explicit `DeviceSnapshot`
record; fallible indexing and parsing return `Except PyErr`, mirroring the
exceptions the Python code can raise, and the normalizers thread the
snapshot through explicitly so that mutation of the caller-supplied
snapshot (or its absence) is visible in the result type.
-/

/-- Python exception kinds this module can raise or catch: out-of-range
indexing (`IndexError`), a failed `int()` conversion (`ValueError`), and the
transport error `APIClientConnectorError` imported from the integration's
exceptions module. -/
inductive PyErr where
  | indexError
  | valueError
  | connectorError
deriving DecidableEq, Repr

/-- `xs[i]` on a Python list: the element, or `IndexError` out of range. -/
def pyGet {α : Type} (xs : List α) (i : Nat) : Except PyErr α :=
  match xs.get? i with
  | some a => .ok a
  | none => .error .indexError

/-- `s[i]` on a Python string: the character, or `IndexError` out of range. -/
def pyChar (s : String) (i : Nat) : Except PyErr Char :=
  match s.data.get? i with
  | some c => .ok c
  | none => .error .indexError

deriving instance DecidableEq for Except

/-- Python `str.strip()` on the character list: drop leading and trailing
whitespace. -/
def stripChars (l : List Char) : List Char :=
  ((l.dropWhile Char.isWhitespace).reverse.dropWhile Char.isWhitespace).reverse

/-- Python `str.strip()`. -/
def pyStrip (s : String) : String :=
  ⟨stripChars s.data⟩

/-- Python `str.lower()`. -/
def pyLower (s : String) : String :=
  ⟨s.data.map Char.toLower⟩

/-- The value of a decimal digit string, or `none` on a non-digit. -/
def digitsVal : List Char → Nat → Option Nat
  | [], acc => some acc
  | c :: cs, acc =>
    if c.isDigit then digitsVal cs (acc * 10 + (c.toNat - 48)) else none

/-- A nonempty run of decimal digits, as a number. -/
def parseDigits (l : List Char) : Option Nat :=
  if l.isEmpty then none else digitsVal l 0

/-- An optionally signed decimal integer literal. -/
def pyIntChars : List Char → Option Int
  | [] => none
  | '-' :: rest => (parseDigits rest).map (fun n => -(n : Int))
  | '+' :: rest => (parseDigits rest).map (fun n => (n : Int))
  | l => (parseDigits l).map (fun n => (n : Int))

/-- Python `int(s)` on a string: whitespace is stripped and an optionally
signed run of digits is parsed; any other content raises `ValueError`. -/
def pyInt (s : String) : Except PyErr Int :=
  match pyIntChars (stripChars s.data) with
  | some n => .ok n
  | none => .error .valueError

/-- A Python naive `datetime`: the civil fields it carries (no timezone). -/
structure CivilTime where
  year : Int
  month : Int
  day : Int
  hour : Int
  minute : Int
  second : Int
deriving DecidableEq, Repr

/-- Days since 1970-01-01 of a civil date (the standard civil-calendar
algorithm; all divisions are floor divisions). -/
def daysFromCivil (y0 m d : Int) : Int :=
  let y := y0 - (if m ≤ 2 then 1 else 0)
  let era := y.fdiv 400
  let yoe := y - era * 400
  let doy := (153 * (m + (if 2 < m then -3 else 9)) + 2).fdiv 5 + d - 1
  let doe := yoe * 365 + yoe.fdiv 4 - yoe.fdiv 100 + doy
  era * 146097 + doe - 719468

/-- Civil date (year, month, day) of a count of days since 1970-01-01. -/
def civilFromDays (z0 : Int) : Int × Int × Int :=
  let z := z0 + 719468
  let era := z.fdiv 146097
  let doe := z - era * 146097
  let yoe := (doe - doe.fdiv 1460 + doe.fdiv 36524 - doe.fdiv 146096).fdiv 365
  let y := yoe + era * 400
  let doy := doe - (365 * yoe + yoe.fdiv 4 - yoe.fdiv 100)
  let mp := (5 * doy + 2).fdiv 153
  let d := doy - (153 * mp + 2).fdiv 5 + 1
  let m := mp + (if mp < 10 then 3 else -9)
  (if 2 < m then y else y + 1, m, d)

/-- The naive datetime for a count of seconds since the epoch. -/
def civilFromSecs (s : Int) : CivilTime :=
  let days := s.fdiv 86400
  let sod := s.emod 86400
  let ymd := civilFromDays days
  { year := ymd.1, month := ymd.2.1, day := ymd.2.2,
    hour := sod.fdiv 3600, minute := (sod.emod 3600).fdiv 60, second := sod.emod 60 }

/-- Seconds since the epoch represented by a naive datetime. -/
def civilToSecs (c : CivilTime) : Int :=
  daysFromCivil c.year c.month c.day * 86400 + c.hour * 3600 + c.minute * 60 + c.second

/-- `datetime + timedelta(hours=h)`: naive civil-time arithmetic with day
rollover, performed linearly on the second count. -/
def civilAddHours (c : CivilTime) (h : Int) : CivilTime :=
  civilFromSecs (civilToSecs c + h * 3600)

/-- Two-digit zero padding, as `%d`, `%H`, `%M`, `%S` produce. -/
def pad2 (n : Int) : String :=
  if n < 10 then "0" ++ toString n else toString n

/-- `%a`: the weekday abbreviation, from days since the epoch (1970-01-01
was a Thursday). -/
def weekdayAbbrev (days : Int) : String :=
  ["Thu", "Fri", "Sat", "Sun", "Mon", "Tue", "Wed"].getD (days.emod 7).toNat ""

/-- `%b`: the month abbreviation for months 1..12. -/
def monthAbbrev (m : Int) : String :=
  ["Jan", "Feb", "Mar", "Apr", "May", "Jun",
   "Jul", "Aug", "Sep", "Oct", "Nov", "Dec"].getD (m - 1).toNat ""

/-- `strftime("%a %d %b %Y %X")` on a naive datetime (C locale, where `%X`
is `HH:MM:SS`): weekday, zero-padded day, month abbreviation, year, time. -/
def strftimeOut (c : CivilTime) : String :=
  let wd := weekdayAbbrev (daysFromCivil c.year c.month c.day)
  let dd := pad2 c.day
  let mon := monthAbbrev c.month
  let yr := toString c.year
  let hh := pad2 c.hour
  let mi := pad2 c.minute
  let ss := pad2 c.second
  s!"{wd} {dd} {mon} {yr} {hh}:{mi}:{ss}"

/-- The `last_changed` computation shared by the zone and bypass
normalizers (olarm_api.py lines 117-122 and 187-192): the millisecond
timestamp is divided by 1000, converted by `time.ctime` to local civil time
(`localSec` abstracts the environment's conversion of epoch seconds to
local-clock seconds; the `ctime`/`strptime` round trip through the string
`"%a %b  %d %X %Y"` preserves the civil fields exactly), shifted by
`timedelta(hours=2)`, and formatted with `strftime("%a %d %b %Y %X")`. -/
def lastChangedFmt (localSec : Int → Int) (stamp : Int) : String :=
  strftimeOut (civilAddHours (civilFromSecs (localSec (stamp.fdiv 1000))) 2)

/-- The `deviceState` half of a device snapshot: live values. -/
structure DeviceState where
  zones : List String
  zonesStamp : List Int
  areas : List String
  power : List (String × Int)
  pgm : List String
deriving DecidableEq, Repr

/-- The `deviceProfile` half of a device snapshot: static configuration. -/
structure DeviceProfile where
  zonesLimit : Nat
  zonesLabels : List String
  zonesTypes : List Int
  areasLimit : Nat
  areasLabels : List String
  pgmLimit : Nat
  pgmLabels : List String
  pgmControl : List String
  ukeysLimit : Nat
  ukeysLabels : List String
  ukeysControl : List String
deriving DecidableEq, Repr

/-- The raw JSON for one device, as returned by `get_devices_json`. -/
structure DeviceSnapshot where
  deviceState : DeviceState
  deviceProfile : DeviceProfile
deriving DecidableEq, Repr

/-- One element of the list built by `get_sensor_states`. -/
structure ZoneRecord where
  name : String
  state : String
  last_changed : Option String
  type : Int
deriving DecidableEq, Repr

def dummyZone : ZoneRecord :=
  { name := "", state := "", last_changed := none, type := 0 }

/-- One iteration of the zone loop of `get_sensor_states` (olarm_api.py
lines 110-142).  The label is read only under the length guard, so the
`getD` default is never the value used. -/
def zoneRecord (localSec : Int → Int) (st : DeviceState) (pr : DeviceProfile)
    (zone : Nat) : Except PyErr ZoneRecord := do
  let code ← pyGet st.zones zone
  let state := if pyLower code = "a" then "on" else "off"
  let stamp ← pyGet st.zonesStamp zone
  let lastChanged := lastChangedFmt localSec stamp
  let lab := pr.zonesLabels.getD zone ""
  if zone < pr.zonesLabels.length ∧ lab ≠ "" ∧ pyStrip lab ≠ "" then do
    let ty ← pyGet pr.zonesTypes zone
    pure { name := lab, state := state, last_changed := some lastChanged, type := ty }
  else
    pure { name := s!"Zone {zone + 1}", state := state,
           last_changed := some lastChanged, type := 0 }

/-- The `for zone in range(0, zonesLimit)` loop of `get_sensor_states`,
counting `fuel` iterations up from index `i`; an exception raised by any
iteration propagates. -/
def zoneLoop (localSec : Int → Int) (st : DeviceState) (pr : DeviceProfile)
    (i fuel : Nat) : Except PyErr (List ZoneRecord) :=
  match fuel with
  | 0 => .ok []
  | n + 1 =>
    match zoneRecord localSec st pr i with
    | .error e => .error e
    | .ok r =>
      match zoneLoop localSec st pr (i + 1) n with
      | .error e => .error e
      | .ok rest => .ok (r :: rest)

/-- One power-source record (olarm_api.py lines 144-163): state `"on"` iff
the value equals 1; the `Batt` key is renamed `Battery` with type 1001,
every other key keeps its name with type 1000. -/
def powerRecord (kv : String × Int) : ZoneRecord :=
  let key := kv.1
  let state := if kv.2 = 1 then "on" else "off"
  if key = "Batt" then
    { name := "Powered by Battery", state := state, last_changed := none, type := 1001 }
  else
    { name := s!"Powered by {key}", state := state, last_changed := none, type := 1000 }

/-- `OlarmApi.get_sensor_states` (olarm_api.py lines 97-165): one record per
zone index below `zonesLimit`, then one record per power key.  The snapshot
is returned alongside unmodified: the source never assigns into
`devices_json` here. -/
def get_sensor_states (localSec : Int → Int) (snap : DeviceSnapshot) :
    Except PyErr (List ZoneRecord × DeviceSnapshot) :=
  match zoneLoop localSec snap.deviceState snap.deviceProfile 0
      snap.deviceProfile.zonesLimit with
  | .error e => .error e
  | .ok zl => .ok (zl ++ snap.deviceState.power.map powerRecord, snap)

/-- One element of the list built by `get_sensor_bypass_states`. -/
structure BypassRecord where
  name : String
  state : String
  last_changed : String
deriving DecidableEq, Repr

def dummyBypass : BypassRecord :=
  { name := "", state := "", last_changed := "" }

/-- One iteration of the zone loop of `get_sensor_bypass_states`
(olarm_api.py lines 180-209): as `zoneRecord` but the state tests for the
bypass code `"b"` and no type field is produced. -/
def bypassRecord (localSec : Int → Int) (st : DeviceState) (pr : DeviceProfile)
    (zone : Nat) : Except PyErr BypassRecord := do
  let code ← pyGet st.zones zone
  let state := if pyLower code = "b" then "on" else "off"
  let stamp ← pyGet st.zonesStamp zone
  let lastChanged := lastChangedFmt localSec stamp
  let lab := pr.zonesLabels.getD zone ""
  if zone < pr.zonesLabels.length ∧ lab ≠ "" ∧ pyStrip lab ≠ "" then
    pure { name := lab, state := state, last_changed := lastChanged }
  else
    pure { name := s!"Zone {zone + 1}", state := state, last_changed := lastChanged }

/-- The `for zone in range(0, zonesLimit)` loop of
`get_sensor_bypass_states`. -/
def bypassLoop (localSec : Int → Int) (st : DeviceState) (pr : DeviceProfile)
    (i fuel : Nat) : Except PyErr (List BypassRecord) :=
  match fuel with
  | 0 => .ok []
  | n + 1 =>
    match bypassRecord localSec st pr i with
    | .error e => .error e
    | .ok r =>
      match bypassLoop localSec st pr (i + 1) n with
      | .error e => .error e
      | .ok rest => .ok (r :: rest)

/-- `OlarmApi.get_sensor_bypass_states` (olarm_api.py lines 167-211).  The
snapshot is returned unmodified: the source never assigns into
`devices_json` here. -/
def get_sensor_bypass_states (localSec : Int → Int) (snap : DeviceSnapshot) :
    Except PyErr (List BypassRecord × DeviceSnapshot) :=
  match bypassLoop localSec snap.deviceState snap.deviceProfile 0
      snap.deviceProfile.zonesLimit with
  | .error e => .error e
  | .ok l => .ok (l, snap)

/-- One element of the list built by `get_panel_states`. -/
structure AreaRecord where
  name : String
  state : String
deriving DecidableEq, Repr

def dummyArea : AreaRecord := { name := "", state := "" }

/-- The `for area_num in range(area_count)` loop of `get_panel_states`
(olarm_api.py lines 227-243), threading the `areasLabels` list because the
source assigns the generated name back into it.  Reading `areasLabels` at
an out-of-range index raises `IndexError`; the source's `try` catches only
`APIClientConnectorError`, so the exception propagates.  The record is
appended only when the live `areas` array reaches the index, and its name
re-reads the (possibly just updated) label. -/
def panelLoop (areas : List String) (i fuel : Nat) (labels : List String) :
    Except PyErr (List AreaRecord × List String) :=
  match fuel with
  | 0 => .ok ([], labels)
  | n + 1 =>
    match pyGet labels i with
    | .error e => .error e
    | .ok lab =>
      let labels1 := if lab = "" then labels.set i s!"Area {i + 1}" else labels
      let hd : List AreaRecord :=
        if i < areas.length then
          [{ name := labels1.getD i "", state := areas.getD i "" }]
        else []
      match panelLoop areas (i + 1) n labels1 with
      | .error e => .error e
      | .ok res => .ok (hd ++ res.1, res.2)

/-- `OlarmApi.get_panel_states` (olarm_api.py lines 213-248).  The returned
snapshot carries the mutated `areasLabels`: the source writes generated
area names back into the caller's `devices_json`. -/
def get_panel_states (snap : DeviceSnapshot) :
    Except PyErr (List AreaRecord × DeviceSnapshot) :=
  match panelLoop snap.deviceState.areas 0 snap.deviceProfile.areasLimit
      snap.deviceProfile.areasLabels with
  | .error e => .error e
  | .ok res =>
    .ok (res.1,
      { snap with deviceProfile := { snap.deviceProfile with areasLabels := res.2 } })

/-- One element of the list built by `get_pgm_zones`. -/
structure PgmRecord where
  name : String
  enabled : Bool
  pulse : Bool
  state : Bool
  pgm_number : Nat
deriving DecidableEq, Repr

/-- Modelled from the spec: the integration's `exceptions` module is not
under `src/`; it supplies `ListIndexError`, the exception caught around the
PGM control-string indexing.  Per the spec a control string too short for
positions 0 or 2 skips the record rather than raising, so `ListIndexError`
is the out-of-range indexing error. -/
def isListIndexError : PyErr → Bool
  | .indexError => true
  | _ => false

/-- One iteration of the PGM loop of `get_pgm_zones` (olarm_api.py lines
262-294): `none` means the iteration hit a `continue` and contributes no
record. -/
def pgmRecord (st : DeviceState) (pr : DeviceProfile) (i : Nat) :
    Except PyErr (Option PgmRecord) := do
  let code ← pyGet st.pgm i
  let state := pyLower code == "a"
  let name0 ← pyGet pr.pgmLabels i
  let ctl ← pyGet pr.pgmControl i
  if ctl = "" then
    pure none
  else
    match pyChar ctl 0 with
    | .error e => if isListIndexError e then pure none else throw e
    | .ok c0 =>
      let enabled := c0 == '1'
      match pyChar ctl 2 with
      | .error e => if isListIndexError e then pure none else throw e
      | .ok c2 =>
        let pulse := c2 == '1'
        let name := if name0 = "" then s!"PGM {i + 1}" else name0
        pure (some { name := name, enabled := enabled, pulse := pulse,
                     state := state, pgm_number := i + 1 })

/-- The `for i in range(0, pgm_limit)` loop of `get_pgm_zones`. -/
def pgmLoop (st : DeviceState) (pr : DeviceProfile) (i fuel : Nat) :
    Except PyErr (List PgmRecord) :=
  match fuel with
  | 0 => .ok []
  | n + 1 =>
    match pgmRecord st pr i with
    | .error e => .error e
    | .ok none => pgmLoop st pr (i + 1) n
    | .ok (some r) =>
      match pgmLoop st pr (i + 1) n with
      | .error e => .error e
      | .ok rest => .ok (r :: rest)

/-- `OlarmApi.get_pgm_zones` (olarm_api.py lines 250-295).  The snapshot is
returned unmodified: the source never assigns into `devices_json` here. -/
def get_pgm_zones (snap : DeviceSnapshot) :
    Except PyErr (List PgmRecord × DeviceSnapshot) :=
  match pgmLoop snap.deviceState snap.deviceProfile 0 snap.deviceProfile.pgmLimit with
  | .error e => .error e
  | .ok l => .ok (l, snap)

/-- One element of the list built by `get_ukey_zones`. -/
structure UkeyRecord where
  name : String
  state : Bool
  ukey_number : Nat
deriving DecidableEq, Repr

/-- One iteration of the ukey loop of `get_ukey_zones` (olarm_api.py lines
308-320): `int()` of the control entry can raise `ValueError`, and the
indexing can raise `IndexError`. -/
def ukeyRecord (pr : DeviceProfile) (i : Nat) : Except PyErr UkeyRecord := do
  let s ← pyGet pr.ukeysControl i
  let v ← pyInt s
  let state := v == 1
  let name0 ← pyGet pr.ukeysLabels i
  let name := if name0 = "" then s!"Ukey {i + 1}" else name0
  pure { name := name, state := state, ukey_number := i + 1 }

/-- The `for i in range(0, ukey_limit)` loop of `get_ukey_zones`: an
exception from any iteration propagates and the records accumulated so far
are discarded. -/
def ukeyLoop (pr : DeviceProfile) (i fuel : Nat) : Except PyErr (List UkeyRecord) :=
  match fuel with
  | 0 => .ok []
  | n + 1 =>
    match ukeyRecord pr i with
    | .error e => .error e
    | .ok r =>
      match ukeyLoop pr (i + 1) n with
      | .error e => .error e
      | .ok rest => .ok (r :: rest)

/-- `OlarmApi.get_ukey_zones` (olarm_api.py lines 297-326).  The per-item
`try` catches only `APIClientConnectorError` and returns `[]` for it; any
other exception (a `ValueError` from `int()`, an `IndexError`) propagates
to the caller.  The snapshot is returned unmodified. -/
def get_ukey_zones (snap : DeviceSnapshot) :
    Except PyErr (List UkeyRecord × DeviceSnapshot) :=
  match ukeyLoop snap.deviceProfile 0 snap.deviceProfile.ukeysLimit with
  | .ok l => .ok (l, snap)
  | .error .connectorError => .ok ([], snap)
  | .error e => .error e

/-- One entry of the action history returned by the actions endpoint.  The
Python sentinel dict carries no `actionNum` key; it is modelled as 0, a
field the code never reads from the sentinel. -/
structure ActionRecord where
  userFullname : String
  actionCreated : Int
  actionCmd : Option String
  actionNum : Int
deriving DecidableEq, Repr

/-- The initial `return_data` of `get_changed_by_json` (olarm_api.py line
55). -/
def sentinelActor : ActionRecord :=
  { userFullname := "No User", actionCreated := 0, actionCmd := none, actionNum := 0 }

/-- The commands excluded by `get_changed_by_json` (olarm_api.py lines
70-76). -/
def actionBlocklist : List String :=
  ["zone-bypass", "pgm-open", "pgm-close", "pgm-pulse", "ukey-activate"]

/-- `change["actionCmd"] not in [...]`: a `None` command is not in a list of
strings, so it passes the filter. -/
def cmdAllowed : Option String → Bool
  | some c => !(actionBlocklist.contains c)
  | none => true

/-- The body of the `for change in changes` loop of `get_changed_by_json`
(olarm_api.py lines 67-81): replace the running best only when the command
is allowed, the area matches and the timestamp is strictly greater. -/
def actorStep (area : Int) (best ch : ActionRecord) : ActionRecord :=
  if cmdAllowed ch.actionCmd ∧ ch.actionNum = area ∧
      best.actionCreated < ch.actionCreated then ch else best

/-- The HTTP response of the actions endpoint as `get_changed_by_json`
distinguishes it: status 404, a parsed action list, or a transport error
(`APIClientConnectorError`). -/
inductive ActionsResponse where
  | notFound
  | payload (changes : List ActionRecord)
  | connError
deriving Repr

/-- `OlarmApi.get_changed_by_json` (olarm_api.py lines 50-87), with the HTTP
response passed in explicitly: status 404 and a transport error both yield
the sentinel, otherwise the loop folds `actorStep` over the action list
starting from the sentinel. -/
def get_changed_by_json (resp : ActionsResponse) (area : Int) : ActionRecord :=
  match resp with
  | .notFound => sentinelActor
  | .connError => sentinelActor
  | .payload changes => changes.foldl (actorStep area) sentinelActor

def dummyUkey : UkeyRecord := { name := "", state := false, ukey_number := 0 }

/-- A concrete snapshot used to instantiate the theorems: two zones (codes
`"a"` and `"b"`, labels `"Front"` and a whitespace-only `" "`), two areas
(labels `""` and `"Lounge"`, one live area code), AC and battery power,
two PGMs (blank labels, controls `"111"` and `"10"`) and one ukey. -/
def wState : DeviceState :=
  { zones := ["a", "b"], zonesStamp := [0, 0], areas := ["disarm"],
    power := [("AC", 1), ("Batt", 0)], pgm := ["a", "b"] }

def wProfile : DeviceProfile :=
  { zonesLimit := 2, zonesLabels := ["Front", " "], zonesTypes := [5, 6],
    areasLimit := 2, areasLabels := ["", "Lounge"],
    pgmLimit := 2, pgmLabels := ["", ""], pgmControl := ["111", "10"],
    ukeysLimit := 1, ukeysLabels := [""], ukeysControl := ["1"] }

def wSnap : DeviceSnapshot := { deviceState := wState, deviceProfile := wProfile }

/-- The zone-sensor list `get_sensor_states id wSnap` produces. -/
def wZoneList : List ZoneRecord :=
  [{ name := "Front", state := "on",
     last_changed := some "Thu 01 Jan 1970 02:00:00", type := 5 },
   { name := "Zone 2", state := "off",
     last_changed := some "Thu 01 Jan 1970 02:00:00", type := 0 },
   { name := "Powered by AC", state := "on", last_changed := none, type := 1000 },
   { name := "Powered by Battery", state := "off", last_changed := none, type := 1001 }]

/-- The bypass list `get_sensor_bypass_states id wSnap` produces. -/
def wBypassList : List BypassRecord :=
  [{ name := "Front", state := "off", last_changed := "Thu 01 Jan 1970 02:00:00" },
   { name := "Zone 2", state := "on", last_changed := "Thu 01 Jan 1970 02:00:00" }]

/-- The area list `get_panel_states wSnap` produces. -/
def wAreaList : List AreaRecord := [{ name := "Area 1", state := "disarm" }]

/-- The snapshot `get_panel_states wSnap` hands back: the blank area label
has been overwritten with the generated name. -/
def wSnapM : DeviceSnapshot :=
  { deviceState := wState,
    deviceProfile := { wProfile with areasLabels := ["Area 1", "Lounge"] } }

/-- A snapshot whose only PGM has a whitespace-only label and a full
control string. -/
def cSnap4 : DeviceSnapshot :=
  { deviceState :=
    { zones := [], zonesStamp := [], areas := [], power := [], pgm := ["a"] },
    deviceProfile :=
    { zonesLimit := 0, zonesLabels := [], zonesTypes := [],
      areasLimit := 0, areasLabels := [],
      pgmLimit := 1, pgmLabels := [" "], pgmControl := ["111"],
      ukeysLimit := 0, ukeysLabels := [], ukeysControl := [] } }

/-- A snapshot whose only ukey control entry is not an integer literal. -/
def cSnap5 : DeviceSnapshot :=
  { deviceState :=
    { zones := [], zonesStamp := [], areas := [], power := [], pgm := [] },
    deviceProfile :=
    { zonesLimit := 0, zonesLabels := [], zonesTypes := [],
      areasLimit := 0, areasLabels := [],
      pgmLimit := 0, pgmLabels := [], pgmControl := [],
      ukeysLimit := 1, ukeysLabels := ["k"], ukeysControl := ["x"] } }

/-- The action list of the spec's `fetch_last_actor` example: a newer
bypass action and an older arm action on the same area. -/
def exampleActions : List ActionRecord :=
  [{ userFullname := "Bypasser", actionCreated := 100,
     actionCmd := some "zone-bypass", actionNum := 1 },
   { userFullname := "Armer", actionCreated := 50,
     actionCmd := some "area-arm", actionNum := 1 }]

/-- The arm action of the example. -/
def exampleArm : ActionRecord :=
  { userFullname := "Armer", actionCreated := 50,
    actionCmd := some "area-arm", actionNum := 1 }

/-! ### Basic lemmas about the Python primitives -/

lemma except_bind_ok {ε α β : Type} {x : Except ε α} {f : α → Except ε β} {b : β}
    (h : x >>= f = .ok b) : ∃ a, x = .ok a ∧ f a = .ok b := by
  cases x with
  | error e => simp [Bind.bind, Except.bind] at h
  | ok a => exact ⟨a, rfl, by simpa [Bind.bind, Except.bind] using h⟩

lemma pyGet_ok_iff {α : Type} {xs : List α} {i : Nat} {a : α} :
    pyGet xs i = Except.ok a ↔ xs.get? i = some a := by
  unfold pyGet
  cases h : xs.get? i <;> simp_all

lemma pyGet_ok_lt {α : Type} {xs : List α} {i : Nat} {a : α}
    (h : pyGet xs i = Except.ok a) : i < xs.length :=
  (List.get?_eq_some.mp (pyGet_ok_iff.mp h)).1

lemma pyGet_ok_getD {α : Type} {xs : List α} {i : Nat} {a : α} (d : α)
    (h : pyGet xs i = Except.ok a) : xs.getD i d = a := by
  rw [List.getD_eq_getElem?_getD, ← List.get?_eq_getElem?, pyGet_ok_iff.mp h]
  rfl

/-! ### Characterization of the zone normalizer -/

/-- The fields of a successfully built zone record, in terms of the raw
snapshot entries at its index. -/
lemma zoneRecord_ok {localSec : Int → Int} {st : DeviceState} {pr : DeviceProfile}
    {zone : Nat} {r : ZoneRecord} (h : zoneRecord localSec st pr zone = .ok r) :
    zone < st.zones.length ∧ zone < st.zonesStamp.length ∧
    r.state = (if pyLower (st.zones.getD zone "") = "a" then "on" else "off") ∧
    r.last_changed = some (lastChangedFmt localSec (st.zonesStamp.getD zone 0)) ∧
    r.name = (if zone < pr.zonesLabels.length ∧ pr.zonesLabels.getD zone "" ≠ "" ∧
        pyStrip (pr.zonesLabels.getD zone "") ≠ "" then pr.zonesLabels.getD zone ""
      else s!"Zone {zone + 1}") := by
  unfold zoneRecord at h
  obtain ⟨code, hcode, h⟩ := except_bind_ok h
  obtain ⟨stamp, hstamp, h⟩ := except_bind_ok h
  refine ⟨pyGet_ok_lt hcode, pyGet_ok_lt hstamp, ?_⟩
  rw [pyGet_ok_getD "" hcode, pyGet_ok_getD 0 hstamp]
  split at h
  · dsimp only at h
    split at h
    · obtain ⟨ty, hty, h⟩ := except_bind_ok h
      injection h with h
      subst h
      simp_all
      all_goals (split <;> (try simp_all))
    · injection h with h
      subst h
      simp_all
      all_goals (split <;> (try simp_all))
      all_goals
        (exfalso
         rename_i himp hdo hcond
         obtain ⟨hlt, hne, hstr⟩ := hcond
         simp only [List.getElem?_eq_getElem hlt, Option.getD_some] at hne hstr
         exact hstr (himp hne))
  · dsimp only at h
    split at h
    · obtain ⟨ty, hty, h⟩ := except_bind_ok h
      injection h with h
      subst h
      simp_all
      all_goals (split <;> (try simp_all))
    · injection h with h
      subst h
      simp_all
      all_goals (split <;> (try simp_all))
      all_goals
        (exfalso
         rename_i himp hdo hcond
         obtain ⟨hlt, hne, hstr⟩ := hcond
         simp only [List.getElem?_eq_getElem hlt, Option.getD_some] at hne hstr
         exact hstr (himp hne))

/-- The zone loop succeeds with one record per iteration, and the `j`-th
record is the record of index `i + j`. -/
lemma zoneLoop_ok {localSec : Int → Int} {st : DeviceState} {pr : DeviceProfile} :
    ∀ fuel i l, zoneLoop localSec st pr i fuel = .ok l →
      l.length = fuel ∧
      ∀ j, j < fuel → zoneRecord localSec st pr (i + j) = .ok (l.getD j dummyZone) := by
  intro fuel
  induction fuel with
  | zero =>
    intro i l h
    simp only [zoneLoop] at h
    injection h with h
    subst h
    simp
  | succ n ih =>
    intro i l h
    simp only [zoneLoop] at h
    cases hz : zoneRecord localSec st pr i with
    | error e => rw [hz] at h; cases h
    | ok r =>
      rw [hz] at h
      cases hrest : zoneLoop localSec st pr (i + 1) n with
      | error e => rw [hrest] at h; cases h
      | ok rest =>
        rw [hrest] at h
        injection h with h
        subst h
        obtain ⟨hlen, hget⟩ := ih (i + 1) rest hrest
        refine ⟨by simp only [List.length_cons, hlen], ?_⟩
        intro j hj
        cases j with
        | zero => simpa only [Nat.add_zero, List.getD_cons_zero] using hz
        | succ m =>
          have hm : m < n := Nat.lt_of_succ_lt_succ hj
          have := hget m hm
          simpa only [List.getD_cons_succ, Nat.add_succ, Nat.succ_add] using this

/-- Decomposition of a successful `get_sensor_states` run: the snapshot is
returned unchanged and the list is the zone loop's records followed by the
power records. -/
lemma get_sensor_states_ok {localSec : Int → Int} {snap : DeviceSnapshot}
    {l : List ZoneRecord} {s' : DeviceSnapshot}
    (h : get_sensor_states localSec snap = .ok (l, s')) :
    s' = snap ∧ ∃ zl, zoneLoop localSec snap.deviceState snap.deviceProfile 0
        snap.deviceProfile.zonesLimit = .ok zl ∧
      l = zl ++ snap.deviceState.power.map powerRecord := by
  unfold get_sensor_states at h
  cases hz : zoneLoop localSec snap.deviceState snap.deviceProfile 0
      snap.deviceProfile.zonesLimit with
  | error e => rw [hz] at h; cases h
  | ok zl =>
    rw [hz] at h
    injection h with h
    have h1 : zl ++ snap.deviceState.power.map powerRecord = l := congrArg Prod.fst h
    have h2 : snap = s' := congrArg Prod.snd h
    exact ⟨h2.symm, zl, rfl, h1.symm⟩

/-! ### Characterization of the bypass normalizer -/

/-- The fields of a successfully built bypass record, in terms of the raw
snapshot entries at its index. -/
lemma bypassRecord_ok {localSec : Int → Int} {st : DeviceState} {pr : DeviceProfile}
    {zone : Nat} {r : BypassRecord} (h : bypassRecord localSec st pr zone = .ok r) :
    zone < st.zones.length ∧ zone < st.zonesStamp.length ∧
    r.state = (if pyLower (st.zones.getD zone "") = "b" then "on" else "off") ∧
    r.last_changed = lastChangedFmt localSec (st.zonesStamp.getD zone 0) ∧
    r.name = (if zone < pr.zonesLabels.length ∧ pr.zonesLabels.getD zone "" ≠ "" ∧
        pyStrip (pr.zonesLabels.getD zone "") ≠ "" then pr.zonesLabels.getD zone ""
      else s!"Zone {zone + 1}") := by
  unfold bypassRecord at h
  obtain ⟨code, hcode, h⟩ := except_bind_ok h
  obtain ⟨stamp, hstamp, h⟩ := except_bind_ok h
  refine ⟨pyGet_ok_lt hcode, pyGet_ok_lt hstamp, ?_⟩
  rw [pyGet_ok_getD "" hcode, pyGet_ok_getD 0 hstamp]
  split at h
  · dsimp only at h
    split at h
    · injection h with h
      subst h
      simp_all
      all_goals (split <;> (try simp_all))
    · injection h with h
      subst h
      simp_all
      all_goals (split <;> (try simp_all))
      all_goals
        (exfalso
         rename_i himp hdo hcond
         obtain ⟨hlt, hne, hstr⟩ := hcond
         simp only [List.getElem?_eq_getElem hlt, Option.getD_some] at hne hstr
         exact hstr (himp hne))
  · dsimp only at h
    split at h
    · injection h with h
      subst h
      simp_all
      all_goals (split <;> (try simp_all))
    · injection h with h
      subst h
      simp_all
      all_goals (split <;> (try simp_all))
      all_goals
        (exfalso
         rename_i himp hdo hcond
         obtain ⟨hlt, hne, hstr⟩ := hcond
         simp only [List.getElem?_eq_getElem hlt, Option.getD_some] at hne hstr
         exact hstr (himp hne))

/-- The bypass loop succeeds with one record per iteration, and the `j`-th
record is the record of index `i + j`. -/
lemma bypassLoop_ok {localSec : Int → Int} {st : DeviceState} {pr : DeviceProfile} :
    ∀ fuel i l, bypassLoop localSec st pr i fuel = .ok l →
      l.length = fuel ∧
      ∀ j, j < fuel → bypassRecord localSec st pr (i + j) = .ok (l.getD j dummyBypass) := by
  intro fuel
  induction fuel with
  | zero =>
    intro i l h
    simp only [bypassLoop] at h
    injection h with h
    subst h
    simp
  | succ n ih =>
    intro i l h
    simp only [bypassLoop] at h
    cases hz : bypassRecord localSec st pr i with
    | error e => rw [hz] at h; cases h
    | ok r =>
      rw [hz] at h
      cases hrest : bypassLoop localSec st pr (i + 1) n with
      | error e => rw [hrest] at h; cases h
      | ok rest =>
        rw [hrest] at h
        injection h with h
        subst h
        obtain ⟨hlen, hget⟩ := ih (i + 1) rest hrest
        refine ⟨by simp only [List.length_cons, hlen], ?_⟩
        intro j hj
        cases j with
        | zero => simpa only [Nat.add_zero, List.getD_cons_zero] using hz
        | succ m =>
          have hm : m < n := Nat.lt_of_succ_lt_succ hj
          have := hget m hm
          simpa only [List.getD_cons_succ, Nat.add_succ, Nat.succ_add] using this

/-- Decomposition of a successful `get_sensor_bypass_states` run: the
snapshot is returned unchanged and the list is the bypass loop's records. -/
lemma get_sensor_bypass_states_ok {localSec : Int → Int} {snap : DeviceSnapshot}
    {l : List BypassRecord} {s' : DeviceSnapshot}
    (h : get_sensor_bypass_states localSec snap = .ok (l, s')) :
    s' = snap ∧ bypassLoop localSec snap.deviceState snap.deviceProfile 0
        snap.deviceProfile.zonesLimit = .ok l := by
  unfold get_sensor_bypass_states at h
  cases hz : bypassLoop localSec snap.deviceState snap.deviceProfile 0
      snap.deviceProfile.zonesLimit with
  | error e => rw [hz] at h; cases h
  | ok bl =>
    rw [hz] at h
    injection h with h
    have h1 : bl = l := congrArg Prod.fst h
    have h2 : snap = s' := congrArg Prod.snd h
    exact ⟨h2.symm, by rw [← h1]⟩

/-! ### Characterization of the area normalizer -/

lemma getD_eq_get? {α : Type} (l : List α) (i : Nat) (d : α) :
    l.getD i d = (l.get? i).getD d := by
  rw [List.getD_eq_getElem?_getD, List.get?_eq_getElem?]

/-- Full characterization of a successful panel loop run: the number of
records is the live-array-capped iteration count, the final labels carry
the generated default exactly at the processed indices whose label was
empty, and the `k`-th record's name is the (possibly defaulted) label at
index `i + k` with the raw live area code as its state. -/
lemma panelLoop_ok {areas : List String} :
    ∀ fuel i labels recs labels',
      panelLoop areas i fuel labels = .ok (recs, labels') →
      recs.length = min fuel (areas.length - i) ∧
      (∀ j, labels'.get? j =
        (if i ≤ j ∧ j < i + fuel ∧ labels.get? j = some "" then some s!"Area {j + 1}"
         else labels.get? j)) ∧
      (∀ k, k < recs.length →
        recs.getD k dummyArea =
          { name := if labels.getD (i + k) "" = "" then s!"Area {i + k + 1}"
                    else labels.getD (i + k) "",
            state := areas.getD (i + k) "" }) := by
  intro fuel
  induction fuel with
  | zero =>
    intro i labels recs labels' h
    simp only [panelLoop] at h
    injection h with h
    have h1 : ([] : List AreaRecord) = recs := congrArg Prod.fst h
    have h2 : labels = labels' := congrArg Prod.snd h
    subst h2
    refine ⟨by simp [← h1], ?_, ?_⟩
    · intro j
      have hno : ¬(i ≤ j ∧ j < i + 0 ∧ labels.get? j = some "") := by
        rintro ⟨a, b, c⟩
        omega
      rw [if_neg hno]
    · intro k hk
      rw [← h1] at hk
      simp at hk
  | succ n ih =>
    intro i labels recs labels' h
    simp only [panelLoop] at h
    cases hlab : pyGet labels i with
    | error e => rw [hlab] at h; cases h
    | ok lab =>
      rw [hlab] at h
      dsimp only at h
      have hlabs : labels.get? i = some lab := pyGet_ok_iff.mp hlab
      have hlt : i < labels.length := pyGet_ok_lt hlab
      have hlabD : labels.getD i "" = lab := pyGet_ok_getD "" hlab
      cases hrest : panelLoop areas (i + 1) n
          (if lab = "" then labels.set i s!"Area {i + 1}" else labels) with
      | error e => rw [hrest] at h; cases h
      | ok res =>
        rw [hrest] at h
        injection h with h
        obtain ⟨recs1, labels1'⟩ := res
        have h1 :
            (if i < areas.length then
              [({ name := (if lab = "" then labels.set i s!"Area {i + 1}"
                    else labels).getD i "",
                  state := areas.getD i "" } : AreaRecord)]
            else []) ++ recs1 = recs := congrArg Prod.fst h
        have h2 : labels' = labels1' := (congrArg Prod.snd h).symm
        subst h2
        obtain ⟨ihlen, ihget, ihrec⟩ := ih (i + 1)
          (if lab = "" then labels.set i s!"Area {i + 1}" else labels) recs1 labels' hrest
        -- the updated label list read at any index
        have hset : ∀ j, (if lab = "" then labels.set i s!"Area {i + 1}"
            else labels).get? j =
            (if j = i ∧ lab = "" then some s!"Area {i + 1}" else labels.get? j) := by
          intro j
          by_cases hji : j = i
          · by_cases hl : lab = ""
            · rw [if_pos hl, if_pos ⟨hji, hl⟩, hji]
              exact List.get?_set_eq_of_lt _ hlt
            · rw [if_neg hl, if_neg (fun hc => hl hc.2)]
          · by_cases hl : lab = ""
            · rw [if_pos hl, if_neg (fun hc => hji hc.1)]
              exact List.get?_set_ne _ _ (fun hc => hji hc.symm)
            · rw [if_neg hl, if_neg (fun hc => hji hc.1)]
        refine ⟨?_, ?_, ?_⟩
        · rw [← h1]
          rw [List.length_append, ihlen]
          by_cases hi : i < areas.length
          · simp only [hi, if_true, List.length_cons, List.length_nil]
            omega
          · simp only [hi, if_false, List.length_nil]
            omega
        · intro j
          rw [ihget j, hset j]
          by_cases hji : j = i
          · by_cases hl : lab = ""
            · have hinner : j = i ∧ lab = "" := ⟨hji, hl⟩
              rw [if_pos hinner]
              have hc1 : ¬(i + 1 ≤ j ∧ j < i + 1 + n ∧
                  (some s!"Area {i + 1}" : Option String) = some "") := by
                intro hc
                have := hc.1
                omega
              have hc2 : i ≤ j ∧ j < i + (n + 1) ∧ labels.get? j = some "" := by
                refine ⟨by omega, by omega, ?_⟩
                rw [hji, hlabs, hl]
              rw [if_neg hc1, if_pos hc2, hji]
            · have hinner : ¬(j = i ∧ lab = "") := fun hc => hl hc.2
              rw [if_neg hinner]
              have hc1 : ¬(i + 1 ≤ j ∧ j < i + 1 + n ∧ labels.get? j = some "") := by
                intro hc
                have := hc.1
                omega
              have hc2 : ¬(i ≤ j ∧ j < i + (n + 1) ∧ labels.get? j = some "") := by
                intro hc
                have := hc.2.2
                rw [hji, hlabs] at this
                exact hl (by injection this)
              rw [if_neg hc1, if_neg hc2]
          · have hinner : ¬(j = i ∧ lab = "") := fun hc => hji hc.1
            rw [if_neg hinner]
            by_cases hcond : i + 1 ≤ j ∧ j < i + 1 + n ∧ labels.get? j = some ""
            · have hcond2 : i ≤ j ∧ j < i + (n + 1) ∧ labels.get? j = some "" :=
                ⟨by omega, by omega, hcond.2.2⟩
              rw [if_pos hcond, if_pos hcond2]
            · have hcond2 : ¬(i ≤ j ∧ j < i + (n + 1) ∧ labels.get? j = some "") := by
                intro hc
                exact hcond ⟨by omega, by omega, hc.2.2⟩
              rw [if_neg hcond, if_neg hcond2]
        · intro k hk
          rw [← h1] at hk ⊢
          by_cases hi : i < areas.length
          · simp only [hi, if_true] at hk ⊢
            cases k with
            | zero =>
              simp only [List.singleton_append, List.getD_cons_zero, Nat.add_zero]
              rw [getD_eq_get?, hset i]
              by_cases hl : lab = ""
              · rw [if_pos ⟨rfl, hl⟩]
                simp only [Option.getD_some]
                rw [hlabD, hl]
                simp
              · have hinner : ¬((i = i) ∧ lab = "") := fun hc => hl hc.2
                rw [if_neg hinner, ← getD_eq_get?, hlabD, if_neg hl]
            | succ m =>
              simp only [List.singleton_append, List.getD_cons_succ,
                List.length_cons] at hk ⊢
              have hm : m < recs1.length := by omega
              have hr := ihrec m hm
              rw [hr]
              have harr : i + 1 + m = i + (m + 1) := by omega
              have hne : ¬(i + 1 + m = i ∧ lab = "") := by
                intro hc
                have := hc.1
                omega
              have hlabm : (if lab = "" then labels.set i s!"Area {i + 1}"
                  else labels).getD (i + 1 + m) "" = labels.getD (i + 1 + m) "" := by
                rw [getD_eq_get?, getD_eq_get?, hset (i + 1 + m), if_neg hne]
              rw [hlabm, harr]
          · exfalso
            simp only [hi, if_false, List.nil_append] at hk
            rw [ihlen] at hk
            omega

/-- Decomposition of a successful `get_panel_states` run. -/
lemma get_panel_states_ok {snap : DeviceSnapshot} {recs : List AreaRecord}
    {s' : DeviceSnapshot} (h : get_panel_states snap = .ok (recs, s')) :
    ∃ labels', panelLoop snap.deviceState.areas 0 snap.deviceProfile.areasLimit
        snap.deviceProfile.areasLabels = .ok (recs, labels') ∧
      s' = { snap with deviceProfile :=
        { snap.deviceProfile with areasLabels := labels' } } := by
  unfold get_panel_states at h
  cases hp : panelLoop snap.deviceState.areas 0 snap.deviceProfile.areasLimit
      snap.deviceProfile.areasLabels with
  | error e => rw [hp] at h; cases h
  | ok res =>
    rw [hp] at h
    injection h with h
    obtain ⟨recs1, labels'⟩ := res
    have h1 : recs1 = recs := congrArg Prod.fst h
    have h2 : ({ snap with deviceProfile :=
        { snap.deviceProfile with areasLabels := labels' } } : DeviceSnapshot) = s' :=
      congrArg Prod.snd h
    exact ⟨labels', by rw [← h1], h2.symm⟩

/-! ### Characterization of the PGM normalizer -/

/-- Reading a list within bounds never raises. -/
lemma pyGet_of_lt {α : Type} {xs : List α} {i : Nat} (d : α) (h : i < xs.length) :
    pyGet xs i = .ok (xs.getD i d) := by
  unfold pyGet
  rw [List.get?_eq_getElem?, List.getElem?_eq_getElem h, getD_eq_get?,
    List.get?_eq_getElem?, List.getElem?_eq_getElem h]
  rfl

/-- Everything a successful PGM iteration with a record tells us: the
control string is nonempty and at least 3 characters long, the flags decode
characters 0 and 2, the state tests the raw code for `"a"`, the number is
the 1-based index and the name is the label unless the label is empty. -/
lemma pgmRecord_ok_some {st : DeviceState} {pr : DeviceProfile} {i : Nat}
    {r : PgmRecord} (h : pgmRecord st pr i = .ok (some r)) :
    i < st.pgm.length ∧ i < pr.pgmLabels.length ∧ i < pr.pgmControl.length ∧
    pr.pgmControl.getD i "" ≠ "" ∧ 3 ≤ (pr.pgmControl.getD i "").data.length ∧
    r.enabled = ((pr.pgmControl.getD i "").data.getD 0 ' ' == '1') ∧
    r.pulse = ((pr.pgmControl.getD i "").data.getD 2 ' ' == '1') ∧
    r.state = (pyLower (st.pgm.getD i "") == "a") ∧
    r.pgm_number = i + 1 ∧
    r.name = (if pr.pgmLabels.getD i "" = "" then s!"PGM {i + 1}"
              else pr.pgmLabels.getD i "") := by
  unfold pgmRecord at h
  obtain ⟨code, hcode, h⟩ := except_bind_ok h
  obtain ⟨name0, hname, h⟩ := except_bind_ok h
  obtain ⟨ctl, hctl, h⟩ := except_bind_ok h
  dsimp only at h
  rw [pyGet_ok_getD "" hcode, pyGet_ok_getD "" hname, pyGet_ok_getD "" hctl]
  refine ⟨pyGet_ok_lt hcode, pyGet_ok_lt hname, pyGet_ok_lt hctl, ?_⟩
  split at h
  · injection h with h
    cases h
  · rename_i hne
    cases hc0 : pyChar ctl 0 with
    | error e =>
      rw [hc0] at h
      unfold pyChar at hc0
      cases h0 : ctl.data.get? 0 <;> rw [h0] at hc0
      · injection hc0 with hc0
        rw [← hc0] at h
        simp [isListIndexError] at h
        injection h with h
        cases h
      · cases hc0
    | ok c0 =>
      rw [hc0] at h
      dsimp only at h
      have hsome0 : ctl.data.get? 0 = some c0 := by
        unfold pyChar at hc0
        cases h0 : ctl.data.get? 0 <;> rw [h0] at hc0
        · cases hc0
        · injection hc0 with hc0
          rw [hc0]
      cases hc2 : pyChar ctl 2 with
      | error e =>
        rw [hc2] at h
        unfold pyChar at hc2
        cases h2 : ctl.data.get? 2 <;> rw [h2] at hc2
        · injection hc2 with hc2
          rw [← hc2] at h
          simp [isListIndexError] at h
          injection h with h
          cases h
        · cases hc2
      | ok c2 =>
        rw [hc2] at h
        dsimp only [pure, Except.pure] at h
        have hsome2 : ctl.data.get? 2 = some c2 := by
          unfold pyChar at hc2
          cases h2 : ctl.data.get? 2 <;> rw [h2] at hc2
          · cases hc2
          · injection hc2 with hc2
            rw [hc2]
        have hl2 : 2 < ctl.data.length := (List.get?_eq_some.mp hsome2).1
        injection h with h
        injection h with h
        subst h
        have hg0 : ctl.data.getD 0 ' ' = c0 := by
          rw [getD_eq_get?, hsome0]
          rfl
        have hg2 : ctl.data.getD 2 ' ' = c2 := by
          rw [getD_eq_get?, hsome2]
          rfl
        refine ⟨hne, by omega, ?_, ?_, rfl, rfl, rfl⟩
        · rw [hg0]
        · rw [hg2]

/-- `Except.ok` feeds its value straight to the continuation. -/
lemma ok_bind {ε α β : Type} (a : α) (f : α → Except ε β) :
    (Except.ok a : Except ε α) >>= f = f a := rfl

/-- A PGM iteration whose control string is empty yields no record. -/
lemma pgmRecord_empty {st : DeviceState} {pr : DeviceProfile} {i : Nat}
    (hc : i < st.pgm.length) (hn : i < pr.pgmLabels.length)
    (hl : i < pr.pgmControl.length) (he : pr.pgmControl.getD i "" = "") :
    pgmRecord st pr i = .ok none := by
  unfold pgmRecord
  rw [pyGet_of_lt "" hc, pyGet_of_lt "" hn, pyGet_of_lt "" hl]
  simp only [ok_bind]
  rw [if_pos he]
  rfl

/-- A PGM iteration whose control string is nonempty but shorter than three
characters yields no record and no error. -/
lemma pgmRecord_short {st : DeviceState} {pr : DeviceProfile} {i : Nat}
    (hc : i < st.pgm.length) (hn : i < pr.pgmLabels.length)
    (hl : i < pr.pgmControl.length) (he : pr.pgmControl.getD i "" ≠ "")
    (hs : (pr.pgmControl.getD i "").data.length < 3) :
    pgmRecord st pr i = .ok none := by
  unfold pgmRecord
  rw [pyGet_of_lt "" hc, pyGet_of_lt "" hn, pyGet_of_lt "" hl]
  simp only [ok_bind]
  rw [if_neg he]
  have h2 : (pr.pgmControl.getD i "").data.get? 2 = none :=
    List.get?_eq_none.mpr (by omega)
  have hch2 : pyChar (pr.pgmControl.getD i "") 2 = .error .indexError := by
    unfold pyChar
    rw [h2]
  cases hch0 : pyChar (pr.pgmControl.getD i "") 0 with
  | error e =>
    have he0 : e = .indexError := by
      unfold pyChar at hch0
      cases h0 : (pr.pgmControl.getD i "").data.get? 0 <;> rw [h0] at hch0
      · injection hch0 with hch0
        exact hch0.symm
      · cases hch0
    rw [he0]
    rfl
  | ok c0 =>
    rw [hch2]
    rfl

/-- Every record a successful PGM loop run emits comes from some iteration
in range that produced it. -/
lemma pgmLoop_ok {st : DeviceState} {pr : DeviceProfile} :
    ∀ fuel i l, pgmLoop st pr i fuel = .ok l →
      ∀ r, r ∈ l → ∃ j, i ≤ j ∧ j < i + fuel ∧ pgmRecord st pr j = .ok (some r) := by
  intro fuel
  induction fuel with
  | zero =>
    intro i l h r hr
    simp only [pgmLoop] at h
    injection h with h
    subst h
    cases hr
  | succ n ih =>
    intro i l h r hr
    simp only [pgmLoop] at h
    cases hp : pgmRecord st pr i with
    | error e => rw [hp] at h; cases h
    | ok o =>
      rw [hp] at h
      cases o with
      | none =>
        obtain ⟨j, hj1, hj2, hj3⟩ := ih (i + 1) l h r hr
        exact ⟨j, by omega, by omega, hj3⟩
      | some r0 =>
        cases hrest : pgmLoop st pr (i + 1) n with
        | error e => rw [hrest] at h; cases h
        | ok rest =>
          rw [hrest] at h
          injection h with h
          subst h
          cases hr with
          | head => exact ⟨i, le_refl i, by omega, hp⟩
          | tail _ hmem =>
            obtain ⟨j, hj1, hj2, hj3⟩ := ih (i + 1) rest hrest r hmem
            exact ⟨j, by omega, by omega, hj3⟩

/-- Decomposition of a successful `get_pgm_zones` run: the snapshot is
returned unchanged and the list is the PGM loop's records. -/
lemma get_pgm_zones_ok {snap : DeviceSnapshot} {l : List PgmRecord}
    {s' : DeviceSnapshot} (h : get_pgm_zones snap = .ok (l, s')) :
    s' = snap ∧ pgmLoop snap.deviceState snap.deviceProfile 0
      snap.deviceProfile.pgmLimit = .ok l := by
  unfold get_pgm_zones at h
  cases hp : pgmLoop snap.deviceState snap.deviceProfile 0
      snap.deviceProfile.pgmLimit with
  | error e => rw [hp] at h; cases h
  | ok pl =>
    rw [hp] at h
    injection h with h
    have h1 : pl = l := congrArg Prod.fst h
    have h2 : snap = s' := congrArg Prod.snd h
    exact ⟨h2.symm, by rw [← h1]⟩

/-! ### Characterization of the ukey normalizer -/

/-- The fields of a successfully built ukey record. -/
lemma ukeyRecord_ok {pr : DeviceProfile} {i : Nat} {r : UkeyRecord}
    (h : ukeyRecord pr i = .ok r) :
    i < pr.ukeysControl.length ∧ i < pr.ukeysLabels.length ∧
    (∃ v, pyInt (pr.ukeysControl.getD i "") = .ok v ∧ r.state = (v == 1)) ∧
    r.ukey_number = i + 1 ∧
    r.name = (if pr.ukeysLabels.getD i "" = "" then s!"Ukey {i + 1}"
              else pr.ukeysLabels.getD i "") := by
  unfold ukeyRecord at h
  obtain ⟨s, hs, h⟩ := except_bind_ok h
  obtain ⟨v, hv, h⟩ := except_bind_ok h
  obtain ⟨name0, hname, h⟩ := except_bind_ok h
  dsimp only [pure, Except.pure] at h
  injection h with h
  subst h
  rw [← pyGet_ok_getD "" hs] at hv
  rw [pyGet_ok_getD "" hname]
  exact ⟨pyGet_ok_lt hs, pyGet_ok_lt hname, ⟨v, hv, rfl⟩, rfl, rfl⟩

/-- The ukey loop succeeds with one record per iteration, and the `j`-th
record is the record of index `i + j`. -/
lemma ukeyLoop_ok {pr : DeviceProfile} :
    ∀ fuel i l, ukeyLoop pr i fuel = .ok l →
      l.length = fuel ∧
      ∀ j, j < fuel → ukeyRecord pr (i + j) = .ok (l.getD j dummyUkey) := by
  intro fuel
  induction fuel with
  | zero =>
    intro i l h
    simp only [ukeyLoop] at h
    injection h with h
    subst h
    simp
  | succ n ih =>
    intro i l h
    simp only [ukeyLoop] at h
    cases hz : ukeyRecord pr i with
    | error e => rw [hz] at h; cases h
    | ok r =>
      rw [hz] at h
      cases hrest : ukeyLoop pr (i + 1) n with
      | error e => rw [hrest] at h; cases h
      | ok rest =>
        rw [hrest] at h
        injection h with h
        subst h
        obtain ⟨hlen, hget⟩ := ih (i + 1) rest hrest
        refine ⟨by simp only [List.length_cons, hlen], ?_⟩
        intro j hj
        cases j with
        | zero => simpa only [Nat.add_zero, List.getD_cons_zero] using hz
        | succ m =>
          have hm : m < n := Nat.lt_of_succ_lt_succ hj
          have := hget m hm
          simpa only [List.getD_cons_succ, Nat.add_succ, Nat.succ_add] using this

/-- `get_ukey_zones` when the loop succeeds. -/
lemma get_ukey_zones_of_ok {snap : DeviceSnapshot} {l : List UkeyRecord}
    (h : ukeyLoop snap.deviceProfile 0 snap.deviceProfile.ukeysLimit = .ok l) :
    get_ukey_zones snap = .ok (l, snap) := by
  unfold get_ukey_zones
  rw [h]

/-- `get_ukey_zones` when the loop raises: only the transport error is
converted to an empty list, every other exception propagates. -/
lemma get_ukey_zones_of_error {snap : DeviceSnapshot} {e : PyErr}
    (h : ukeyLoop snap.deviceProfile 0 snap.deviceProfile.ukeysLimit = .error e) :
    get_ukey_zones snap =
      (if e = .connectorError then .ok ([], snap) else .error e) := by
  unfold get_ukey_zones
  rw [h]
  cases e <;> rfl

/-! ### The last-actor selection -/

/-- One fold step never decreases the running best's timestamp. -/
lemma actorStep_created_le (area : Int) (best ch : ActionRecord) :
    best.actionCreated ≤ (actorStep area best ch).actionCreated := by
  unfold actorStep
  split
  · rename_i hc
    exact le_of_lt hc.2.2
  · exact le_refl _

/-- The whole fold never decreases the running best's timestamp. -/
lemma foldl_actorStep_le (area : Int) :
    ∀ (l : List ActionRecord) (best : ActionRecord),
      best.actionCreated ≤ (l.foldl (actorStep area) best).actionCreated := by
  intro l
  induction l with
  | nil => intro best; exact le_refl _
  | cons x xs ih =>
    intro best
    exact le_trans (actorStep_created_le area best x) (ih (actorStep area best x))

/-- The fold's result dominates the timestamp of every allowed, matching
action in the list. -/
lemma foldl_actorStep_max (area : Int) :
    ∀ (l : List ActionRecord) (best ch : ActionRecord), ch ∈ l →
      cmdAllowed ch.actionCmd → ch.actionNum = area →
      ch.actionCreated ≤ (l.foldl (actorStep area) best).actionCreated := by
  intro l
  induction l with
  | nil =>
    intro best ch hm
    cases hm
  | cons x xs ih =>
    intro best ch hm hallow hnum
    cases hm with
    | head =>
      simp only [List.foldl_cons]
      by_cases hlt : best.actionCreated < x.actionCreated
      · have hstep : actorStep area best x = x := by
          unfold actorStep
          rw [if_pos ⟨hallow, hnum, hlt⟩]
        rw [hstep]
        exact foldl_actorStep_le area xs x
      · have h1 : x.actionCreated ≤ best.actionCreated := le_of_not_lt hlt
        exact le_trans h1 (le_trans (actorStep_created_le area best x)
          (foldl_actorStep_le area xs _))
    | tail _ hmem =>
      simp only [List.foldl_cons]
      exact ih (actorStep area best x) ch hmem hallow hnum

/-- The fold's result is the initial best or an allowed, matching element
of the list. -/
lemma foldl_actorStep_mem (area : Int) :
    ∀ (l : List ActionRecord) (best : ActionRecord),
      l.foldl (actorStep area) best = best ∨
      (l.foldl (actorStep area) best ∈ l ∧
        cmdAllowed (l.foldl (actorStep area) best).actionCmd ∧
        (l.foldl (actorStep area) best).actionNum = area) := by
  intro l
  induction l with
  | nil => intro best; exact Or.inl rfl
  | cons x xs ih =>
    intro best
    simp only [List.foldl_cons]
    rcases ih (actorStep area best x) with h | ⟨hm, ha, hn⟩
    · rw [h]
      unfold actorStep
      split
      · rename_i hc
        exact Or.inr ⟨List.mem_cons_self x xs, hc.1, hc.2.1⟩
      · exact Or.inl rfl
    · exact Or.inr ⟨List.mem_cons_of_mem x hm, ha, hn⟩

/-- An action whose timestamp ties the running best never replaces it. -/
lemma actorStep_tie (area : Int) (best ch : ActionRecord)
    (h : ch.actionCreated = best.actionCreated) : actorStep area best ch = best := by
  unfold actorStep
  rw [if_neg]
  intro hc
  rw [h] at hc
  exact lt_irrefl _ hc.2.2

/-! ### Claim theorems -/

/-- A helper: the first `zonesLimit` entries of the zone-sensor list are
the zone loop's records. -/
lemma sensor_states_zone_part {localSec : Int → Int} {snap : DeviceSnapshot}
    {l : List ZoneRecord} {s' : DeviceSnapshot}
    (h : get_sensor_states localSec snap = .ok (l, s'))
    {i : Nat} (hi : i < snap.deviceProfile.zonesLimit) :
    zoneRecord localSec snap.deviceState snap.deviceProfile i =
      .ok (l.getD i dummyZone) := by
  obtain ⟨hs, zl, hzl, hl⟩ := get_sensor_states_ok h
  obtain ⟨hlen, hget⟩ := zoneLoop_ok _ 0 zl hzl
  have hz := hget i hi
  rw [Nat.zero_add] at hz
  have hidx : l.getD i dummyZone = zl.getD i dummyZone := by
    rw [hl, getD_eq_get?, getD_eq_get?, List.get?_append (by omega)]
  rw [hidx]
  exact hz

/-- C1: for every snapshot on which the zone normalizer succeeds and every
zone index below `zonesLimit`, the record's state is `"on"` iff the raw
per-zone code, lowercased, is `"a"`; anything else gives `"off"`. -/
theorem claim_C1_zone_state (localSec : Int → Int) (snap : DeviceSnapshot)
    (l : List ZoneRecord) (s' : DeviceSnapshot)
    (h : get_sensor_states localSec snap = .ok (l, s'))
    (i : Nat) (hi : i < snap.deviceProfile.zonesLimit) :
    ((l.getD i dummyZone).state = "on" ↔
      pyLower (snap.deviceState.zones.getD i "") = "a") ∧
    (¬pyLower (snap.deviceState.zones.getD i "") = "a" →
      (l.getD i dummyZone).state = "off") := by
  have hz := zoneRecord_ok (sensor_states_zone_part h hi)
  have hstate := hz.2.2.1
  constructor
  · rw [hstate]
    by_cases hc : pyLower (snap.deviceState.zones.getD i "") = "a"
    · rw [if_pos hc]
      exact ⟨fun _ => hc, fun _ => rfl⟩
    · rw [if_neg hc]
      exact ⟨fun hoff => absurd hoff (by decide), fun ha => absurd ha hc⟩
  · intro hc
    rw [hstate, if_neg hc]

/-- C1 witness: on the concrete snapshot, zone 0 (code `"a"`) is `"on"`. -/
theorem claim_C1_witness :
    (wZoneList.getD 0 dummyZone).state = "on" ↔
      pyLower (wSnap.deviceState.zones.getD 0 "") = "a" :=
  (claim_C1_zone_state id wSnap wZoneList wSnap (by decide) 0 (by decide)).1

/-- C7: when the actions endpoint answers HTTP 404, `get_changed_by_json`
returns the sentinel `{userFullname := "No User", actionCreated := 0,
actionCmd := none}` unchanged. -/
theorem claim_C7_actions_404 (area : Int) :
    get_changed_by_json .notFound area = sentinelActor := rfl

/-- C8: the zone and bypass normalizers never both report `"on"` at the
same index of the same snapshot: the zone record needs lowercased code
`"a"`, the bypass record `"b"`. -/
theorem claim_C8_zone_bypass_disjoint (localSec : Int → Int) (snap : DeviceSnapshot)
    (lz : List ZoneRecord) (s1 : DeviceSnapshot)
    (lb : List BypassRecord) (s2 : DeviceSnapshot)
    (hz : get_sensor_states localSec snap = .ok (lz, s1))
    (hb : get_sensor_bypass_states localSec snap = .ok (lb, s2))
    (i : Nat) (hi : i < snap.deviceProfile.zonesLimit) :
    ¬((lz.getD i dummyZone).state = "on" ∧ (lb.getD i dummyBypass).state = "on") := by
  rintro ⟨h1, h2⟩
  have hzs := (zoneRecord_ok (sensor_states_zone_part hz hi)).2.2.1
  rw [hzs] at h1
  have hza : pyLower (snap.deviceState.zones.getD i "") = "a" := by
    by_cases hc : pyLower (snap.deviceState.zones.getD i "") = "a"
    · exact hc
    · rw [if_neg hc] at h1
      exact absurd h1 (by decide)
  obtain ⟨hsb, hbl⟩ := get_sensor_bypass_states_ok hb
  obtain ⟨hlen, hget⟩ := bypassLoop_ok _ 0 lb hbl
  have hbr := hget i hi
  rw [Nat.zero_add] at hbr
  have hstate := (bypassRecord_ok hbr).2.2.1
  rw [hstate] at h2
  by_cases hc : pyLower (snap.deviceState.zones.getD i "") = "b"
  · rw [hza] at hc
    exact absurd hc (by decide)
  · rw [if_neg hc] at h2
    exact absurd h2 (by decide)

/-- C8 witness: on the concrete snapshot at index 0 the two `"on"` states
are not simultaneous. -/
theorem claim_C8_witness :
    ¬((wZoneList.getD 0 dummyZone).state = "on" ∧
      (wBypassList.getD 0 dummyBypass).state = "on") :=
  claim_C8_zone_bypass_disjoint id wSnap wZoneList wSnap wBypassList wSnap
    (by decide) (by decide) 0 (by decide)

/-- C9: in both the zone and bypass normalizers, `last_changed` at index
`i` is the millisecond timestamp divided by 1000, converted to local civil
time, shifted forward by exactly 2 hours, and formatted in the order
weekday, day, month, year, time. -/
theorem claim_C9_last_changed (localSec : Int → Int) (snap : DeviceSnapshot)
    (lz : List ZoneRecord) (s1 : DeviceSnapshot)
    (lb : List BypassRecord) (s2 : DeviceSnapshot)
    (hz : get_sensor_states localSec snap = .ok (lz, s1))
    (hb : get_sensor_bypass_states localSec snap = .ok (lb, s2))
    (i : Nat) (hi : i < snap.deviceProfile.zonesLimit) :
    (lz.getD i dummyZone).last_changed =
      some (strftimeOut (civilAddHours (civilFromSecs (localSec
        ((snap.deviceState.zonesStamp.getD i 0).fdiv 1000))) 2)) ∧
    (lb.getD i dummyBypass).last_changed =
      strftimeOut (civilAddHours (civilFromSecs (localSec
        ((snap.deviceState.zonesStamp.getD i 0).fdiv 1000))) 2) := by
  constructor
  · exact (zoneRecord_ok (sensor_states_zone_part hz hi)).2.2.2.1
  · obtain ⟨hsb, hbl⟩ := get_sensor_bypass_states_ok hb
    obtain ⟨hlen, hget⟩ := bypassLoop_ok _ 0 lb hbl
    have hbr := hget i hi
    rw [Nat.zero_add] at hbr
    exact (bypassRecord_ok hbr).2.2.2.1

/-- C9 witness: on the concrete snapshot (timestamp 0, identity local-time
conversion) the formatted value is the epoch shifted by two hours. -/
theorem claim_C9_witness :
    (wZoneList.getD 0 dummyZone).last_changed = some "Thu 01 Jan 1970 02:00:00" := by
  have h := (claim_C9_last_changed id wSnap wZoneList wSnap wBypassList wSnap
    (by decide) (by decide) 0 (by decide)).1
  exact h.trans (by decide)

/-- C2: `get_changed_by_json` selects, among the actions whose command is
outside the blocklist and whose area matches, the first one attaining the
maximum `actionCreated`, folding with a strict less-than comparison from
the sentinel: the spec's concrete example picks the older `area-arm` entry
over the blocklisted newer bypass, the result dominates every eligible
action's timestamp, the result is the sentinel or an eligible list element,
and an action whose timestamp ties the running best never replaces it. -/
theorem claim_C2_last_actor :
    (get_changed_by_json (.payload exampleActions) 1 = exampleArm) ∧
    (∀ (area : Int) (changes : List ActionRecord) (ch : ActionRecord),
      ch ∈ changes → cmdAllowed ch.actionCmd → ch.actionNum = area →
      ch.actionCreated ≤ (get_changed_by_json (.payload changes) area).actionCreated) ∧
    (∀ (area : Int) (changes : List ActionRecord),
      get_changed_by_json (.payload changes) area = sentinelActor ∨
      (get_changed_by_json (.payload changes) area ∈ changes ∧
        cmdAllowed (get_changed_by_json (.payload changes) area).actionCmd ∧
        (get_changed_by_json (.payload changes) area).actionNum = area)) ∧
    (∀ (area : Int) (best ch : ActionRecord),
      ch.actionCreated = best.actionCreated → actorStep area best ch = best) := by
  refine ⟨by decide, ?_, ?_, actorStep_tie⟩
  · intro area changes ch hm ha hn
    exact foldl_actorStep_max area changes sentinelActor ch hm ha hn
  · intro area changes
    exact foldl_actorStep_mem area changes sentinelActor

/-- C2 witness: on the example list the eligible arm action's timestamp is
dominated by the selected record's. -/
theorem claim_C2_witness :
    exampleArm.actionCreated ≤
      (get_changed_by_json (.payload exampleActions) 1).actionCreated :=
  claim_C2_last_actor.2.1 1 exampleActions exampleArm (by decide) (by decide) (by decide)

/-- C3: a PGM index whose control string is empty contributes no record to
`get_pgm_zones` (no record of its 1-based number appears); a record that is
produced decodes `enabled` from character 0 and `pulse` from character 2 of
its control string; and a nonempty control string shorter than three
characters makes the iteration skip the record without raising. -/
theorem claim_C3_pgm_decode :
    (∀ (snap : DeviceSnapshot) (l : List PgmRecord) (s' : DeviceSnapshot),
      get_pgm_zones snap = .ok (l, s') →
      ∀ i, i < snap.deviceProfile.pgmLimit →
        snap.deviceProfile.pgmControl.getD i "" = "" →
        ∀ r, r ∈ l → r.pgm_number ≠ i + 1) ∧
    (∀ (st : DeviceState) (pr : DeviceProfile) (i : Nat) (r : PgmRecord),
      pgmRecord st pr i = .ok (some r) →
      r.enabled = ((pr.pgmControl.getD i "").data.getD 0 ' ' == '1') ∧
      r.pulse = ((pr.pgmControl.getD i "").data.getD 2 ' ' == '1')) ∧
    (∀ (st : DeviceState) (pr : DeviceProfile) (i : Nat),
      i < st.pgm.length → i < pr.pgmLabels.length → i < pr.pgmControl.length →
      pr.pgmControl.getD i "" ≠ "" → (pr.pgmControl.getD i "").data.length < 3 →
      pgmRecord st pr i = .ok none) := by
  refine ⟨?_, ?_, ?_⟩
  · intro snap l s' h i hi he r hr heq
    obtain ⟨hs, hloop⟩ := get_pgm_zones_ok h
    obtain ⟨j, hj0, hjlt, hj⟩ := pgmLoop_ok _ 0 l hloop r hr
    have hps := pgmRecord_ok_some hj
    have hjnum : r.pgm_number = j + 1 := hps.2.2.2.2.2.2.2.2.1
    have hji : j = i := by omega
    rw [hji] at hps
    exact hps.2.2.2.1 he
  · intro st pr i r h
    have hps := pgmRecord_ok_some h
    exact ⟨hps.2.2.2.2.2.1, hps.2.2.2.2.2.2.1⟩
  · intro st pr i h1 h2 h3 h4 h5
    exact pgmRecord_short h1 h2 h3 h4 h5

/-- C3 witness: the spec's `"10"` example on the concrete snapshot — PGM
index 1 has a nonempty two-character control string and is skipped without
an error. -/
theorem claim_C3_witness : pgmRecord wState wProfile 1 = .ok none :=
  claim_C3_pgm_decode.2.2 wState wProfile 1 (by decide) (by decide) (by decide)
    (by decide) (by decide)

/-- The zone-record name in terms of the stripped label: whitespace-only,
empty or missing labels default, anything else is echoed. -/
lemma zoneRecord_name_strip {localSec : Int → Int} {st : DeviceState}
    {pr : DeviceProfile} {zone : Nat} {r : ZoneRecord}
    (h : zoneRecord localSec st pr zone = .ok r) :
    (pyStrip (pr.zonesLabels.getD zone "") = "" → r.name = s!"Zone {zone + 1}") ∧
    (pyStrip (pr.zonesLabels.getD zone "") ≠ "" →
      r.name = pr.zonesLabels.getD zone "") := by
  have hn := (zoneRecord_ok h).2.2.2.2
  constructor
  · intro hstrip
    rw [hn, if_neg]
    intro hc
    exact hc.2.2 hstrip
  · intro hstrip
    have hne : pr.zonesLabels.getD zone "" ≠ "" := by
      intro he
      rw [he] at hstrip
      exact hstrip (by decide)
    have hlt : zone < pr.zonesLabels.length := by
      by_contra hge
      have hd : pr.zonesLabels.getD zone "" = "" := by
        rw [getD_eq_get?, List.get?_eq_none.mpr (by omega)]
        rfl
      exact hne hd
    rw [hn, if_pos ⟨hlt, hne, hstrip⟩]

/-- The bypass-record name in terms of the stripped label. -/
lemma bypassRecord_name_strip {localSec : Int → Int} {st : DeviceState}
    {pr : DeviceProfile} {zone : Nat} {r : BypassRecord}
    (h : bypassRecord localSec st pr zone = .ok r) :
    (pyStrip (pr.zonesLabels.getD zone "") = "" → r.name = s!"Zone {zone + 1}") ∧
    (pyStrip (pr.zonesLabels.getD zone "") ≠ "" →
      r.name = pr.zonesLabels.getD zone "") := by
  have hn := (bypassRecord_ok h).2.2.2.2
  constructor
  · intro hstrip
    rw [hn, if_neg]
    intro hc
    exact hc.2.2 hstrip
  · intro hstrip
    have hne : pr.zonesLabels.getD zone "" ≠ "" := by
      intro he
      rw [he] at hstrip
      exact hstrip (by decide)
    have hlt : zone < pr.zonesLabels.length := by
      by_contra hge
      have hd : pr.zonesLabels.getD zone "" = "" := by
        rw [getD_eq_get?, List.get?_eq_none.mpr (by omega)]
        rfl
      exact hne hd
    rw [hn, if_pos ⟨hlt, hne, hstrip⟩]

/-- C4 counterexample: the PGM normalizer does not default a
whitespace-only label.  On a snapshot whose only PGM label is `" "` the
record's name is `" "` itself, not `"PGM 1"`. -/
theorem claim_C4_counterexample :
    get_pgm_zones cSnap4 =
      .ok ([⟨" ", true, true, true, 1⟩], cSnap4) ∧ (" " : String) ≠ "PGM 1" :=
  ⟨by decide, by decide⟩

/-- C4 (amended): the zone and bypass normalizers default a label that is
missing, empty or whitespace-only and echo any other label verbatim; the
area, PGM and ukey normalizers default only a label exactly equal to `""`,
echoing every nonempty label — including whitespace-only ones — verbatim. -/
theorem claim_C4_label_defaulting :
    (∀ (localSec : Int → Int) (snap : DeviceSnapshot) (l : List ZoneRecord)
        (s' : DeviceSnapshot), get_sensor_states localSec snap = .ok (l, s') →
      ∀ i, i < snap.deviceProfile.zonesLimit →
        (pyStrip (snap.deviceProfile.zonesLabels.getD i "") = "" →
          (l.getD i dummyZone).name = s!"Zone {i + 1}") ∧
        (pyStrip (snap.deviceProfile.zonesLabels.getD i "") ≠ "" →
          (l.getD i dummyZone).name = snap.deviceProfile.zonesLabels.getD i "")) ∧
    (∀ (localSec : Int → Int) (snap : DeviceSnapshot) (l : List BypassRecord)
        (s' : DeviceSnapshot), get_sensor_bypass_states localSec snap = .ok (l, s') →
      ∀ i, i < snap.deviceProfile.zonesLimit →
        (pyStrip (snap.deviceProfile.zonesLabels.getD i "") = "" →
          (l.getD i dummyBypass).name = s!"Zone {i + 1}") ∧
        (pyStrip (snap.deviceProfile.zonesLabels.getD i "") ≠ "" →
          (l.getD i dummyBypass).name = snap.deviceProfile.zonesLabels.getD i "")) ∧
    (∀ (snap : DeviceSnapshot) (recs : List AreaRecord) (s' : DeviceSnapshot),
      get_panel_states snap = .ok (recs, s') →
      ∀ i, i < snap.deviceProfile.areasLimit → i < snap.deviceState.areas.length →
        (recs.getD i dummyArea).name =
          (if snap.deviceProfile.areasLabels.getD i "" = "" then s!"Area {i + 1}"
           else snap.deviceProfile.areasLabels.getD i "")) ∧
    (∀ (st : DeviceState) (pr : DeviceProfile) (i : Nat) (r : PgmRecord),
      pgmRecord st pr i = .ok (some r) →
      r.name = (if pr.pgmLabels.getD i "" = "" then s!"PGM {i + 1}"
                else pr.pgmLabels.getD i "")) ∧
    (∀ (pr : DeviceProfile) (i : Nat) (r : UkeyRecord), ukeyRecord pr i = .ok r →
      r.name = (if pr.ukeysLabels.getD i "" = "" then s!"Ukey {i + 1}"
                else pr.ukeysLabels.getD i "")) := by
  refine ⟨?_, ?_, ?_, ?_, ?_⟩
  · intro localSec snap l s' h i hi
    exact zoneRecord_name_strip (sensor_states_zone_part h hi)
  · intro localSec snap l s' h i hi
    obtain ⟨hs, hbl⟩ := get_sensor_bypass_states_ok h
    obtain ⟨hlen, hget⟩ := bypassLoop_ok _ 0 l hbl
    have hbr := hget i hi
    rw [Nat.zero_add] at hbr
    exact bypassRecord_name_strip hbr
  · intro snap recs s' h i hi hia
    obtain ⟨labels', hloop, hs⟩ := get_panel_states_ok h
    obtain ⟨hlen, hget, hrec⟩ := panelLoop_ok _ 0 _ _ _ hloop
    have hk : i < recs.length := by
      rw [hlen]
      omega
    have hr := hrec i hk
    rw [Nat.zero_add] at hr
    rw [hr]
  · intro st pr i r h
    exact (pgmRecord_ok_some h).2.2.2.2.2.2.2.2.2
  · intro pr i r h
    exact (ukeyRecord_ok h).2.2.2.2

/-- C4 witness: on the concrete snapshot the whitespace-only zone label at
index 1 is defaulted to the generated name. -/
theorem claim_C4_witness : (wZoneList.getD 1 dummyZone).name = "Zone 2" := by
  have h := (claim_C4_label_defaulting.1 id wSnap wZoneList wSnap (by decide)
    1 (by decide)).1 (by decide)
  exact h.trans (by decide)

/-- C5 counterexample: a parsing error in the ukey loop does not yield an
empty list — it propagates as the `ValueError` of `int("x")`. -/
theorem claim_C5_counterexample :
    get_ukey_zones cSnap5 = .error .valueError ∧
    get_ukey_zones cSnap5 ≠ .ok ([], cSnap5) :=
  ⟨by decide, by decide⟩

/-- C5 (amended): the ukey normalizer returns the empty list only for the
transport error (`APIClientConnectorError`), which its `except` clause
catches; a parsing or index error propagates to the caller instead of
yielding an empty list; and on error-free inputs it returns one record per
index below `ukeysLimit`, with state true iff the control entry parses to
the integer 1. -/
theorem claim_C5_ukey_failfast (snap : DeviceSnapshot) :
    (∀ l, ukeyLoop snap.deviceProfile 0 snap.deviceProfile.ukeysLimit = .ok l →
      get_ukey_zones snap = .ok (l, snap) ∧
      l.length = snap.deviceProfile.ukeysLimit ∧
      ∀ i, i < snap.deviceProfile.ukeysLimit →
        ∃ v, pyInt (snap.deviceProfile.ukeysControl.getD i "") = .ok v ∧
          (l.getD i dummyUkey).state = (v == 1)) ∧
    (ukeyLoop snap.deviceProfile 0 snap.deviceProfile.ukeysLimit =
        .error .connectorError → get_ukey_zones snap = .ok ([], snap)) ∧
    (∀ e, e ≠ .connectorError →
      ukeyLoop snap.deviceProfile 0 snap.deviceProfile.ukeysLimit = .error e →
      get_ukey_zones snap = .error e) := by
  refine ⟨?_, ?_, ?_⟩
  · intro l h
    obtain ⟨hlen, hget⟩ := ukeyLoop_ok _ 0 l h
    refine ⟨get_ukey_zones_of_ok h, hlen, ?_⟩
    intro i hi
    have hr := hget i hi
    rw [Nat.zero_add] at hr
    exact (ukeyRecord_ok hr).2.2.1
  · intro h
    rw [get_ukey_zones_of_error h]
    rfl
  · intro e he h
    rw [get_ukey_zones_of_error h, if_neg he]

/-- C5 witness: on the concrete snapshot (control entry `"1"`) the loop
succeeds with the single expected record. -/
theorem claim_C5_witness :
    get_ukey_zones wSnap =
      .ok ([{ name := "Ukey 1", state := true, ukey_number := 1 }], wSnap) :=
  ((claim_C5_ukey_failfast wSnap).1
    [{ name := "Ukey 1", state := true, ukey_number := 1 }] (by decide)).1

/-- C6: on every snapshot where they succeed, the zone normalizer emits
exactly `zonesLimit` records plus one per power key, the bypass normalizer
exactly `zonesLimit`, and the area normalizer exactly
`min areasLimit (length of the live areas array)`. -/
theorem claim_C6_record_counts (localSec : Int → Int) (snap : DeviceSnapshot) :
    (∀ l s', get_sensor_states localSec snap = .ok (l, s') →
      l.length = snap.deviceProfile.zonesLimit + snap.deviceState.power.length) ∧
    (∀ l s', get_sensor_bypass_states localSec snap = .ok (l, s') →
      l.length = snap.deviceProfile.zonesLimit) ∧
    (∀ recs s', get_panel_states snap = .ok (recs, s') →
      recs.length = min snap.deviceProfile.areasLimit
        snap.deviceState.areas.length) := by
  refine ⟨?_, ?_, ?_⟩
  · intro l s' h
    obtain ⟨hs, zl, hzl, hl⟩ := get_sensor_states_ok h
    obtain ⟨hlen, hget⟩ := zoneLoop_ok _ 0 zl hzl
    rw [hl, List.length_append, List.length_map, hlen]
  · intro l s' h
    obtain ⟨hs, hbl⟩ := get_sensor_bypass_states_ok h
    exact (bypassLoop_ok _ 0 l hbl).1
  · intro recs s' h
    obtain ⟨labels', hloop, hs⟩ := get_panel_states_ok h
    have hlen := (panelLoop_ok _ 0 _ _ _ hloop).1
    rw [hlen, Nat.sub_zero]

/-- C6 witness: the counts on the concrete snapshot (2 zones + 2 power
keys, 2 bypass zones, and 1 = min 2 1 area). -/
theorem claim_C6_witness :
    wZoneList.length = wSnap.deviceProfile.zonesLimit +
      wSnap.deviceState.power.length ∧
    wBypassList.length = wSnap.deviceProfile.zonesLimit ∧
    wAreaList.length = min wSnap.deviceProfile.areasLimit
      wSnap.deviceState.areas.length :=
  ⟨(claim_C6_record_counts id wSnap).1 wZoneList wSnap (by decide),
   (claim_C6_record_counts id wSnap).2.1 wBypassList wSnap (by decide),
   (claim_C6_record_counts id wSnap).2.2 wAreaList wSnapM (by decide)⟩

/-- C10: `get_panel_states` is the only normalizer that modifies the
caller-supplied snapshot: the zone, bypass, PGM and ukey normalizers hand
the snapshot back unchanged, while the area normalizer returns it with the
`areasLabels` array rewritten — every processed index whose label was the
empty string now carries the generated `"Area {i+1}"` — leaving
`deviceState` untouched. -/
theorem claim_C10_panel_mutation (localSec : Int → Int) (snap : DeviceSnapshot) :
    (∀ l s', get_sensor_states localSec snap = .ok (l, s') → s' = snap) ∧
    (∀ l s', get_sensor_bypass_states localSec snap = .ok (l, s') → s' = snap) ∧
    (∀ l s', get_pgm_zones snap = .ok (l, s') → s' = snap) ∧
    (∀ l s', get_ukey_zones snap = .ok (l, s') → s' = snap) ∧
    (∀ recs s', get_panel_states snap = .ok (recs, s') →
      s'.deviceState = snap.deviceState ∧
      (∃ labels', s' = { snap with deviceProfile :=
        { snap.deviceProfile with areasLabels := labels' } }) ∧
      (∀ i, i < snap.deviceProfile.areasLimit →
        snap.deviceProfile.areasLabels.get? i = some "" →
        s'.deviceProfile.areasLabels.get? i = some s!"Area {i + 1}")) := by
  refine ⟨?_, ?_, ?_, ?_, ?_⟩
  · intro l s' h
    exact (get_sensor_states_ok h).1
  · intro l s' h
    exact (get_sensor_bypass_states_ok h).1
  · intro l s' h
    exact (get_pgm_zones_ok h).1
  · intro l s' h
    unfold get_ukey_zones at h
    cases hu : ukeyLoop snap.deviceProfile 0 snap.deviceProfile.ukeysLimit with
    | ok l0 =>
      rw [hu] at h
      injection h with h
      exact (congrArg Prod.snd h).symm
    | error e =>
      rw [hu] at h
      cases e with
      | connectorError =>
        injection h with h
        exact (congrArg Prod.snd h).symm
      | indexError => cases h
      | valueError => cases h
  · intro recs s' h
    obtain ⟨labels', hloop, hs⟩ := get_panel_states_ok h
    obtain ⟨hlen, hget, hrec⟩ := panelLoop_ok _ 0 _ _ _ hloop
    subst hs
    refine ⟨rfl, ⟨labels', rfl⟩, ?_⟩
    intro i hi hempty
    have hg := hget i
    rw [if_pos ⟨Nat.zero_le i, by omega, hempty⟩] at hg
    exact hg

/-- C10 witness: on the concrete snapshot the blank label of area 0 has
been replaced by the generated name in the returned snapshot. -/
theorem claim_C10_witness :
    wSnapM.deviceProfile.areasLabels.get? 0 = some "Area 1" := by
  have h := ((claim_C10_panel_mutation id wSnap).2.2.2.2 wAreaList wSnapM
    (by decide)).2.2 0 (by decide) (by decide)
  exact h.trans (by decide)
